import Mathlib

/-!
Verification of the whatsapp_lab chat/clock-sync system (src/server.py,
src/client.py) against its natural-language specification.

Modelling conventions:
* Decoded JSON records are association lists `JObj` over the scalar JSON
  values the protocol uses (`null`, booleans, numbers, strings); numbers
  are idealised as rationals.
* Connections are opaque identifiers (`Conn := ℕ`); whether a send to a
  connection succeeds is a parameter `sendOk : Conn → Bool`.
* Wall-clock samples (`time.time()`) are passed in as explicit rational
  arguments.
* The bounded deadline of the client's sync wait loop is modelled by a
  fuel parameter counting queue polls before the deadline expires.
-/

namespace WhatsappLab

/-- Scalar JSON values as produced by decoding protocol records. -/
inductive JVal where
  | null
  | bool (b : Bool)
  | num (q : ℚ)
  | str (s : String)
deriving DecidableEq

/-- A decoded JSON object: an association list of fields (Python dict). -/
abbrev JObj := List (String × JVal)

/-- Python `d.get(k)` with default `None`: first binding of `k`, if any. -/
def jGet (o : JObj) (k : String) : Option JVal :=
  (o.find? (fun p => p.1 == k)).map (fun p => p.2)

/-- Python `d.get(k, default)`. -/
def jGetD (o : JObj) (k : String) (d : JVal) : JVal :=
  (jGet o k).getD d

/-! ## Clock model (client.py, class Clock) -/

/-- Clock state: the adjustable offset set by Cristian's algorithm
(`Clock.offset`, initially 0.0). The fixed origin fields of the Python
class only feed `now_local`, which we model by passing the local-time
sample explicitly. -/
structure Clock where
  offset : ℚ
deriving DecidableEq

/-- Python `Clock.now_local`: drifted local time, as a function of the
start value, the elapsed real time and the configured drift rate. -/
def now_local (startLocal realElapsed drift : ℚ) : ℚ :=
  startLocal + realElapsed * (1 + drift)

/-- Python `Clock.now_synced`: local time plus the current offset. -/
def now_synced (c : Clock) (localNow : ℚ) : ℚ :=
  localNow + c.offset

/-- Python `Clock.apply_cristian`: `rtt = t_recv - t_send`;
`offset := server_time + rtt/2 - t_recv`, replacing the old offset. -/
def apply_cristian (c : Clock) (tSend serverTime tRecv : ℚ) : Clock :=
  let rtt := tRecv - tSend
  let estOffset := serverTime + rtt / 2 - tRecv
  ⟨estOffset⟩

/-- C4: applying Cristian's algorithm sets the offset to
`server_time + (t_recv - t_send)/2 - t_recv` independently of the previous
offset (the result does not mention `c.offset`); afterwards `now_synced`
is `now_local + offset`; and at `t_send=100, server_time=205, t_recv=102`
the new offset is 104 and `now_synced` at local time 102 is 206. -/
theorem apply_cristian_offset (c : Clock) (tSend serverTime tRecv : ℚ) :
    (apply_cristian c tSend serverTime tRecv).offset
        = serverTime + (tRecv - tSend) / 2 - tRecv ∧
    (∀ lt : ℚ, now_synced (apply_cristian c tSend serverTime tRecv) lt
        = lt + (serverTime + (tRecv - tSend) / 2 - tRecv)) ∧
    (apply_cristian c 100 205 102).offset = 104 ∧
    now_synced (apply_cristian c 100 205 102) 102 = 206 := by
  refine ⟨rfl, fun lt => rfl, ?_, ?_⟩ <;>
    norm_num [apply_cristian, now_synced]

/-! ## Server broadcast (server.py, `broadcast`) -/

/-- Connections are opaque identifiers. -/
abbrev Conn := ℕ

/-- The fan-out loop of `broadcast`, in iteration order: for each client,
skip it if it `is exclude`, otherwise attempt `send_json`; a raising send
appends the client to `dead`. Returns (attempted sends, dead list). -/
def bcastScan (sendOk : Conn → Bool) (exclude : Option Conn) :
    List Conn → List Conn × List Conn
  | [] => ⟨[], []⟩
  | c :: rest =>
    if some c = exclude then bcastScan sendOk exclude rest
    else
      let r := bcastScan sendOk exclude rest
      if sendOk c then ⟨c :: r.1, r.2⟩ else ⟨c :: r.1, c :: r.2⟩

/-- Result of one `broadcast` call: the connections that received a
delivery attempt, the failed ones, and the client set after the trailing
`clients.discard(d)` loop. -/
structure BCastResult where
  attempts : List Conn
  dead : List Conn
  clients' : List Conn
deriving DecidableEq

/-- Python `broadcast(msg_obj, exclude)`: under the lock, iterate over
`clients`, attempting a send to every connection other than `exclude`,
collecting failures in `dead`; after the loop, discard every dead
connection from `clients`. -/
def broadcast (sendOk : Conn → Bool) (clients : List Conn)
    (exclude : Option Conn) : BCastResult :=
  let s := bcastScan sendOk exclude clients
  ⟨s.1, s.2, clients.filter (fun c => !(s.2.contains c))⟩

theorem bcastScan_fst (sendOk : Conn → Bool) (exclude : Option Conn) :
    ∀ l : List Conn,
      (bcastScan sendOk exclude l).1
        = l.filter (fun c => !decide (some c = exclude))
  | [] => rfl
  | c :: rest => by
    by_cases h : some c = exclude <;>
      simp [bcastScan, h, bcastScan_fst sendOk exclude rest, List.filter_cons] <;>
      split <;> simp

theorem bcastScan_snd (sendOk : Conn → Bool) (exclude : Option Conn) :
    ∀ l : List Conn,
      (bcastScan sendOk exclude l).2
        = l.filter (fun c => !decide (some c = exclude) && !sendOk c)
  | [] => rfl
  | c :: rest => by
    by_cases h : some c = exclude
    · simp [bcastScan, h, bcastScan_snd sendOk exclude rest, List.filter_cons]
    · by_cases hs : sendOk c <;>
        simp [bcastScan, h, hs, bcastScan_snd sendOk exclude rest, List.filter_cons]

/-- C6: every registered connection other than the excluded one receives
a delivery attempt regardless of which sends fail; each failing
non-excluded connection is collected in `dead` and is gone from the
client set when `broadcast` returns; connections whose send succeeds
survive; `broadcast` never adds connections; and with no exclusion the
attempt list is exactly the registry at the start of the pass. -/
theorem broadcast_failure_isolation (sendOk : Conn → Bool)
    (clients : List Conn) (exclude : Option Conn) :
    (∀ c ∈ clients, some c ≠ exclude →
        c ∈ (broadcast sendOk clients exclude).attempts) ∧
    (∀ c ∈ clients, some c ≠ exclude → sendOk c = false →
        c ∈ (broadcast sendOk clients exclude).dead ∧
        c ∉ (broadcast sendOk clients exclude).clients') ∧
    (∀ c ∈ clients, sendOk c = true →
        c ∈ (broadcast sendOk clients exclude).clients') ∧
    (∀ c ∈ (broadcast sendOk clients exclude).clients', c ∈ clients) ∧
    (exclude = none → (broadcast sendOk clients exclude).attempts = clients) := by
  refine ⟨?_, ?_, ?_, ?_, ?_⟩
  · intro c hc hne
    simp [broadcast, bcastScan_fst, List.mem_filter, hc, hne]
  · intro c hc hne hfail
    constructor
    · simp [broadcast, bcastScan_snd, List.mem_filter, hc, hne, hfail]
    · simp [broadcast, bcastScan_snd, List.mem_filter, List.contains,
        List.elem_eq_mem, hc, hne, hfail]
  · intro c hc hok
    simp [broadcast, bcastScan_snd, List.mem_filter, List.contains,
      List.elem_eq_mem, hc, hok]
  · intro c hc
    simp only [broadcast, List.mem_filter] at hc
    exact hc.1
  · intro h
    subst h
    simp [broadcast, bcastScan_fst]

/-- Witness for C6: with clients 0,1,2, no exclusion, and connection 1
the only failing one, 0 is attempted, 1 is dead and gone from the
registry, 2 survives, and the attempt list is the whole registry. -/
theorem broadcast_failure_isolation_witness :
    (0 : Conn) ∈ (broadcast (fun c => decide (c ≠ 1)) [0, 1, 2] none).attempts ∧
    (1 : Conn) ∈ (broadcast (fun c => decide (c ≠ 1)) [0, 1, 2] none).dead ∧
    (1 : Conn) ∉ (broadcast (fun c => decide (c ≠ 1)) [0, 1, 2] none).clients' ∧
    (2 : Conn) ∈ (broadcast (fun c => decide (c ≠ 1)) [0, 1, 2] none).clients' ∧
    (broadcast (fun c => decide (c ≠ 1)) [0, 1, 2] none).attempts = [0, 1, 2] := by
  have h := broadcast_failure_isolation (fun c => decide (c ≠ 1)) [0, 1, 2] none
  refine ⟨h.1 0 (by decide) (by decide), ?_, ?_,
    h.2.2.1 2 (by decide) (by decide), h.2.2.2.2 rfl⟩
  · exact (h.2.1 1 (by decide) (by decide) (by decide)).1
  · exact (h.2.1 1 (by decide) (by decide) (by decide)).2

/-! ## Lock discipline of broadcast (C9) -/

/-- Events of one `broadcast` call, in program order. -/
inductive Event where
  | acquire
  | release
  | send (c : Conn)
  | drop (c : Conn)
deriving DecidableEq

/-- Event trace of Python `broadcast`: the `with clients_lock:` block
encloses the whole body, so the lock is acquired first, then every send
attempt and every discard of a dead connection happens, then the lock is
released. The iteration runs over the shared `clients` set directly;
there is no snapshot taken before acquiring the lock. -/
def broadcastTrace (sendOk : Conn → Bool) (clients : List Conn)
    (exclude : Option Conn) : List Event :=
  let s := bcastScan sendOk exclude clients
  [Event.acquire] ++ s.1.map Event.send ++ s.2.map Event.drop ++ [Event.release]

/-- Is some send event performed while the lock depth is positive? -/
def anySendHeld (d : Nat) : List Event → Bool
  | [] => false
  | Event.acquire :: r => anySendHeld (d + 1) r
  | Event.release :: r => anySendHeld (d - 1) r
  | Event.send _ :: r => decide (0 < d) || anySendHeld d r
  | Event.drop _ :: r => anySendHeld d r

/-- C9 failing input evaluated: with a single registered connection and
no exclusion, the trace of `broadcast` is acquire, send, release — the
send to the connection happens while the registry lock is held, refuting
the claim that every send happens outside the critical section. -/
theorem broadcast_send_under_lock :
    broadcastTrace (fun _ => true) [0] none
      = [Event.acquire, Event.send 0, Event.release] ∧
    anySendHeld 0 (broadcastTrace (fun _ => true) [0] none) = true := by
  exact ⟨rfl, rfl⟩

/-! ## Join step (server.py, `handle_client` lines 30–34) and C3 -/

/-- Python `set.add`: insert if not already present. -/
def setAdd (clients : List Conn) (c : Conn) : List Conn :=
  if clients.contains c then clients else clients ++ [c]

/-- The join notice record `{"type":"info","text":f"{addr} joined"}`. -/
def joinNotice (addr : String) : JObj :=
  [("type", JVal.str "info"), ("text", JVal.str (addr ++ " joined"))]

/-- Python `handle_client` lines 30–34: add the connection to the
registry, then `broadcast(join notice, exclude=None)`. -/
def joinStep (sendOk : Conn → Bool) (clients : List Conn) (conn : Conn)
    (addr : String) : List Conn × JObj × BCastResult :=
  let clients1 := setAdd clients conn
  ⟨clients1, joinNotice addr, broadcast sendOk clients1 none⟩

/-- C3 counterexample: with registry {0} and new connection 1, the join
notice broadcast attempts delivery to [0, 1] — including connection 1
itself, contradicting the claim that the newly joined connection does not
receive its own join notice. -/
theorem join_notice_reaches_joiner :
    (joinStep (fun _ => true) [0] 1 "peer").2.2.attempts = [0, 1] ∧
    (1 : Conn) ∈ (joinStep (fun _ => true) [0] 1 "peer").2.2.attempts := by
  exact ⟨rfl, by decide⟩

/-- C3 amended: the join notice is broadcast with no exclusion, so its
delivery attempts cover the entire registry after registration — the
other connections and the newly joined connection itself. -/
theorem join_notice_delivered_to_all (sendOk : Conn → Bool)
    (clients : List Conn) (conn : Conn) (addr : String) :
    (joinStep sendOk clients conn addr).2.2.attempts = setAdd clients conn ∧
    conn ∈ (joinStep sendOk clients conn addr).2.2.attempts ∧
    (∀ c ∈ clients, c ∈ (joinStep sendOk clients conn addr).2.2.attempts) := by
  have hall : (joinStep sendOk clients conn addr).2.2.attempts
      = setAdd clients conn := by
    simp [joinStep, broadcast, bcastScan_fst]
  have hmem : conn ∈ setAdd clients conn := by
    unfold setAdd
    split
    · next h => simpa [List.contains, List.elem_eq_mem] using h
    · simp
  refine ⟨hall, hall ▸ hmem, ?_⟩
  intro c hc
  rw [hall]
  unfold setAdd
  split
  · exact hc
  · exact List.mem_append_left _ hc

/-- Witness for C3 amended: with registry {0} and new connection 1, both
the old connection 0 and the joiner 1 receive a join-notice delivery
attempt. -/
theorem join_notice_delivered_to_all_witness :
    (1 : Conn) ∈ (joinStep (fun _ => true) [0] 1 "peer").2.2.attempts ∧
    (0 : Conn) ∈ (joinStep (fun _ => true) [0] 1 "peer").2.2.attempts := by
  have h := join_notice_delivered_to_all (fun _ => true) [0] 1 "peer"
  exact ⟨h.2.1, h.2.2 0 (by decide)⟩

/-! ## Server message handling (server.py, `handle_client` body) -/

/-- The outbound chat record built by `handle_client` for an inbound
`chat` message: `{"type":"chat", "from": msg.get("from","?"),
"text": msg.get("text",""), "client_ts": msg.get("client_ts"),
"server_ts": server_ts}`. `dict.get` with one argument defaults to
`None`, i.e. an explicit JSON null in the outbound record. -/
def chatOut (msg : JObj) (serverTs : ℚ) : JObj :=
  [("type", JVal.str "chat"),
   ("from", jGetD msg "from" (JVal.str "?")),
   ("text", jGetD msg "text" (JVal.str "")),
   ("client_ts", (jGet msg "client_ts").getD JVal.null),
   ("server_ts", JVal.num serverTs)]

/-- The `{"type":"sync_reply","server_time": now}` record. -/
def syncReplyObj (now : ℚ) : JObj :=
  [("type", JVal.str "sync_reply"), ("server_time", JVal.num now)]

/-- Effect of handling one decoded message: the registry afterwards, the
targeted `send_json` calls, and the `broadcast` calls (record, exclude). -/
structure HandleResult where
  clients' : List Conn
  directSends : List (Conn × JObj)
  broadcastCalls : List (JObj × Option Conn)
deriving DecidableEq

/-- Python `handle_client` dispatch on `msg.get("type")`: a `chat`
message is restamped via `chatOut` and broadcast with no exclusion
(so the registry can shrink by the broadcast's dead connections); a
`sync_request` gets a `sync_reply` sent to the requesting connection
only; anything else is ignored. -/
def handle_msg (sendOk : Conn → Bool) (clients : List Conn) (conn : Conn)
    (now : ℚ) (msg : JObj) : HandleResult :=
  let mtype := jGet msg "type"
  if mtype = some (JVal.str "chat") then
    ⟨(broadcast sendOk clients none).clients', [], [(chatOut msg now, none)]⟩
  else if mtype = some (JVal.str "sync_request") then
    ⟨clients, [(conn, syncReplyObj now)], []⟩
  else
    ⟨clients, [], []⟩

/-- Python whitespace characters stripped by `str.strip()` (ASCII). -/
def pyWhitespace (c : Char) : Bool :=
  c == ' ' || c == '\t' || c == '\n' || c == '\x0d' ||
  c == '\x0b' || c == '\x0c'

/-- Python `line.strip()`: drop leading and trailing whitespace. -/
def pyStrip (s : String) : String :=
  String.mk (((s.toList.dropWhile pyWhitespace).reverse.dropWhile
    pyWhitespace).reverse)

/-- Python `handle_client` per-line processing: strip the line; an empty
result is skipped (`continue`); otherwise decode it (`json.loads`,
modelled by the `loads` parameter since the JSON text codec is the
Python standard library, not this repository), skipping decode failures;
otherwise dispatch on the message. -/
def handle_line (loads : String → Option JObj) (sendOk : Conn → Bool)
    (clients : List Conn) (conn : Conn) (now : ℚ) (line : String) :
    HandleResult :=
  let l := pyStrip line
  if l.isEmpty then ⟨clients, [], []⟩
  else
    match loads l with
    | none => ⟨clients, [], []⟩
    | some msg => handle_msg sendOk clients conn now msg

/-- The Active-state read loop of `handle_client` over a list of inbound
lines, each paired with the server time at which it is handled. -/
def sessionRun (loads : String → Option JObj) (sendOk : Conn → Bool)
    (conn : Conn) : List Conn → List (String × ℚ) → HandleResult
  | clients, [] => ⟨clients, [], []⟩
  | clients, (line, t) :: rest =>
    let r := handle_line loads sendOk clients conn t line
    let s := sessionRun loads sendOk conn r.clients' rest
    ⟨s.clients', r.directSends ++ s.directSends,
      r.broadcastCalls ++ s.broadcastCalls⟩

/-- C1 counterexample: for the inbound chat record `{"type":"chat"}`
(`from`, `text`, `client_ts` all absent) handled at server time 5, the
broadcast output carries `client_ts` as an explicit null (the field is
present, not absent) and `from`/`text` replaced by the defaults `"?"`
and `""`, refuting the claim that absence is preserved and that absent
fields are not replaced by defaults. -/
theorem chat_absent_fields_defaulted :
    jGet [("type", JVal.str "chat")] "client_ts" = none ∧
    jGet (chatOut [("type", JVal.str "chat")] 5) "client_ts"
      = some JVal.null ∧
    jGet (chatOut [("type", JVal.str "chat")] 5) "client_ts" ≠ none ∧
    jGet [("type", JVal.str "chat")] "from" = none ∧
    jGet (chatOut [("type", JVal.str "chat")] 5) "from"
      = some (JVal.str "?") ∧
    jGet (chatOut [("type", JVal.str "chat")] 5) "text"
      = some (JVal.str "") ∧
    (handle_msg (fun _ => true) [0] 0 5 [("type", JVal.str "chat")]).broadcastCalls
      = [(chatOut [("type", JVal.str "chat")] 5, none)] := by
  refine ⟨rfl, rfl, by decide, rfl, rfl, rfl, rfl⟩

/-- C1 amended: the outbound chat record stamps `server_ts` with the
receipt time and carries `from`, `text` and `client_ts` read from the
inbound record with `dict.get` — preserved unchanged when present, but
replaced by the defaults `"?"`, `""` and explicit null respectively when
absent — and for every chat-typed inbound record the handler broadcasts
exactly this record with no exclusion and sends nothing directly. -/
theorem chat_restamp (msg : JObj) (ts : ℚ) :
    jGet (chatOut msg ts) "server_ts" = some (JVal.num ts) ∧
    jGet (chatOut msg ts) "from" = some (jGetD msg "from" (JVal.str "?")) ∧
    jGet (chatOut msg ts) "text" = some (jGetD msg "text" (JVal.str "")) ∧
    jGet (chatOut msg ts) "client_ts"
      = some ((jGet msg "client_ts").getD JVal.null) ∧
    (∀ sendOk : Conn → Bool, ∀ clients : List Conn, ∀ conn : Conn,
      jGet msg "type" = some (JVal.str "chat") →
      handle_msg sendOk clients conn ts msg
        = ⟨(broadcast sendOk clients none).clients', [],
            [(chatOut msg ts, none)]⟩) := by
  refine ⟨rfl, rfl, rfl, rfl, ?_⟩
  intro sendOk clients conn h
  simp [handle_msg, h]

/-- Witness for C1 amended: concrete evaluation at the record
`{"type":"chat","from":"bob","text":"hi","client_ts":3}` and time 5;
present fields are preserved and the handler broadcasts the restamped
record with no exclusion. -/
theorem chat_restamp_witness :
    jGet (chatOut [("type", JVal.str "chat"), ("from", JVal.str "bob"),
        ("text", JVal.str "hi"), ("client_ts", JVal.num 3)] 5) "from"
      = some (JVal.str "bob") ∧
    handle_msg (fun _ => true) [0] 0 5
        [("type", JVal.str "chat"), ("from", JVal.str "bob"),
         ("text", JVal.str "hi"), ("client_ts", JVal.num 3)]
      = ⟨(broadcast (fun _ => true) [0] none).clients', [],
          [(chatOut [("type", JVal.str "chat"), ("from", JVal.str "bob"),
              ("text", JVal.str "hi"), ("client_ts", JVal.num 3)] 5, none)]⟩ := by
  have h := chat_restamp [("type", JVal.str "chat"), ("from", JVal.str "bob"),
    ("text", JVal.str "hi"), ("client_ts", JVal.num 3)] 5
  exact ⟨h.2.1, h.2.2.2.2 (fun _ => true) [0] 0 rfl⟩

/-- C8: handling a `sync_request` from a connection sends exactly one
`sync_reply` carrying the current server time to that connection only,
performs no broadcast, and leaves the registry unchanged. -/
theorem sync_request_replies_to_requester (sendOk : Conn → Bool)
    (clients : List Conn) (conn : Conn) (now : ℚ) (msg : JObj)
    (h : jGet msg "type" = some (JVal.str "sync_request")) :
    handle_msg sendOk clients conn now msg
      = ⟨clients, [(conn, syncReplyObj now)], []⟩ := by
  simp [handle_msg, h]

/-- Witness for C8: concrete `sync_request` at time 3 from connection 1
with registry [0, 1]. -/
theorem sync_request_replies_to_requester_witness :
    handle_msg (fun _ => true) [0, 1] 1 3 [("type", JVal.str "sync_request")]
      = ⟨[0, 1], [(1, syncReplyObj 3)], []⟩ :=
  sync_request_replies_to_requester (fun _ => true) [0, 1] 1 3
    [("type", JVal.str "sync_request")] rfl

/-- C10: an inbound record that strips to the empty string is skipped
entirely — no direct send, no broadcast, registry unchanged — and the
session loop over the remaining records proceeds exactly as if the blank
record had never arrived. -/
theorem blank_line_skipped (loads : String → Option JObj)
    (sendOk : Conn → Bool) (clients : List Conn) (conn : Conn) (t : ℚ)
    (line : String) (h : pyStrip line = "") :
    handle_line loads sendOk clients conn t line = ⟨clients, [], []⟩ ∧
    (∀ rest : List (String × ℚ),
      sessionRun loads sendOk conn clients ((line, t) :: rest)
        = sessionRun loads sendOk conn clients rest) := by
  have hempty : handle_line loads sendOk clients conn t line
      = ⟨clients, [], []⟩ := by
    simp only [handle_line, h]
    rfl
  refine ⟨hempty, fun rest => ?_⟩
  simp [sessionRun, hempty]

/-- Witness for C10: the whitespace-only line consisting of a space and
a tab is skipped, and a session starting with it equals the session
without it. -/
theorem blank_line_skipped_witness :
    handle_line (fun _ => none) (fun _ => true) [0] 0 2 " \t"
      = ⟨[0], [], []⟩ ∧
    sessionRun (fun _ => none) (fun _ => true) 0 [0] [(" \t", 2)]
      = sessionRun (fun _ => none) (fun _ => true) 0 [0] [] := by
  have h := blank_line_skipped (fun _ => none) (fun _ => true) [0] 0 2 " \t" rfl
  exact ⟨h.1, h.2 []⟩

/-! ## Client sync coordinator (client.py, `ClientApp.sync_with_server`) -/

/-- Python `msg.get("type") == "sync_reply"`. -/
def isSyncReply (m : JObj) : Bool :=
  decide (jGet m "type" = some (JVal.str "sync_reply"))

/-- The wait-for-reply loop: repeatedly take a message from the inbound
queue until the deadline (`fuel` polls remain); a non-`sync_reply`
message is put back with `queue.put`, i.e. appended at the BACK of the
queue; the loop stops at the first `sync_reply`, which is consumed.
Returns the reply found (if any) and the queue afterwards. -/
def syncWait (fuel : Nat) (q : List JObj) : Option JObj × List JObj :=
  match fuel, q with
  | 0, q => ⟨none, q⟩
  | _ + 1, [] => ⟨none, []⟩
  | fuel + 1, m :: rest =>
    if isSyncReply m then ⟨some m, rest⟩
    else syncWait fuel (rest ++ [m])

/-- Every message the wait loop took out is still accounted for: the
queue after the loop, together with the consumed reply (if one was
found), is a permutation of the original queue — nothing is dropped and
at most the one matching `sync_reply` is removed. -/
theorem syncWait_no_drop (fuel : Nat) :
    ∀ q : List JObj,
      List.Perm ((syncWait fuel q).2 ++ (syncWait fuel q).1.toList) q := by
  induction fuel with
  | zero => intro q; simp [syncWait]
  | succ n ih =>
    intro q
    match q with
    | [] => simp [syncWait]
    | m :: rest =>
      by_cases h : isSyncReply m
      · simp only [syncWait, h, if_pos]
        simpa using List.perm_append_singleton m rest
      · simp only [syncWait, h, if_neg, Bool.false_eq_true, not_false_iff]
        exact (ih (rest ++ [m])).trans (List.perm_append_singleton m rest)

/-- C2 failing input evaluated: with the queue holding chat "a", then a
`sync_reply`, then chat "b", the wait loop consumes the reply but leaves
the queue as [chat "b", chat "a"] — the surviving non-reply messages are
reordered relative to their original order [chat "a", chat "b"]. -/
theorem syncWait_reorders :
    syncWait 5
        [[("type", JVal.str "chat"), ("text", JVal.str "a")],
         [("type", JVal.str "sync_reply"), ("server_time", JVal.num 7)],
         [("type", JVal.str "chat"), ("text", JVal.str "b")]]
      = ⟨some [("type", JVal.str "sync_reply"), ("server_time", JVal.num 7)],
         [[("type", JVal.str "chat"), ("text", JVal.str "b")],
          [("type", JVal.str "chat"), ("text", JVal.str "a")]]⟩ ∧
    [[("type", JVal.str "chat"), ("text", JVal.str "b")],
     [("type", JVal.str "chat"), ("text", JVal.str "a")]]
      ≠ [[("type", JVal.str "chat"), ("text", JVal.str "a")],
         [("type", JVal.str "chat"), ("text", JVal.str "b")]] := by
  exact ⟨rfl, by decide⟩

/-- Python `isinstance(server_time, (int, float))`. Note that in Python
`bool` is a subclass of `int`, so a JSON boolean also passes this check. -/
def pyIsNumber : Option JVal → Bool
  | some (JVal.num _) => true
  | some (JVal.bool _) => true
  | _ => false

/-- Numeric value of a JSON value under Python arithmetic coercion
(`True` is 1, `False` is 0); only applied after `pyIsNumber` holds. -/
def pyNumVal : JVal → ℚ
  | JVal.num q => q
  | JVal.bool b => if b then 1 else 0
  | _ => 0

/-- Outcome reported by one sync round (via `append_chat`). -/
inductive SyncOutcome where
  | adjusted
  | invalidTime
  | noReply
deriving DecidableEq

/-- Result of one `sync_with_server` round. -/
structure SyncRoundResult where
  clock' : Clock
  queue' : List JObj
  outcome : Option SyncOutcome
  scheduledNext : Bool
deriving DecidableEq

/-- Python `ClientApp.sync_with_server`: if not running, return without
scheduling; otherwise send a `sync_request`, wait for a reply with
`syncWait`, and on a reply whose `server_time` passes the isinstance
check apply Cristian's algorithm, else leave the clock unchanged and
report the failure; the `finally` block always schedules the next round. -/
def sync_with_server (running : Bool) (c : Clock) (q : List JObj)
    (fuel : Nat) (tSend tRecv : ℚ) : SyncRoundResult :=
  if running = false then ⟨c, q, none, false⟩
  else
    let w := syncWait fuel q
    match w.1 with
    | none => ⟨c, w.2, some SyncOutcome.noReply, true⟩
    | some r =>
      let st := jGet r "server_time"
      if pyIsNumber st then
        ⟨apply_cristian c tSend (pyNumVal (st.getD JVal.null)) tRecv, w.2,
          some SyncOutcome.adjusted, true⟩
      else ⟨c, w.2, some SyncOutcome.invalidTime, true⟩

/-- C5: in a running round in which the wait loop finds no `sync_reply`
before the deadline, or finds one whose `server_time` fails the numeric
check, the clock (hence the offset) is unchanged, a non-fatal failure
outcome (`noReply` resp. `invalidTime`) is reported, and the next round
is still scheduled. -/
theorem sync_failure_keeps_offset (c : Clock) (q : List JObj) (fuel : Nat)
    (tSend tRecv : ℚ) :
    ((syncWait fuel q).1 = none →
      (sync_with_server true c q fuel tSend tRecv).clock' = c ∧
      (sync_with_server true c q fuel tSend tRecv).outcome
        = some SyncOutcome.noReply ∧
      (sync_with_server true c q fuel tSend tRecv).scheduledNext = true) ∧
    (∀ r : JObj, (syncWait fuel q).1 = some r →
      pyIsNumber (jGet r "server_time") = false →
      (sync_with_server true c q fuel tSend tRecv).clock' = c ∧
      (sync_with_server true c q fuel tSend tRecv).outcome
        = some SyncOutcome.invalidTime ∧
      (sync_with_server true c q fuel tSend tRecv).scheduledNext = true) := by
  constructor
  · intro h
    simp [sync_with_server, h]
  · intro r h hnum
    simp [sync_with_server, h, hnum]

/-- Witness for C5: a round over the empty queue with zero polls left
finds no reply, keeps the clock at offset 0, reports `noReply`, and
still schedules the next round; and a round whose queue holds a
`sync_reply` with a string `server_time` reports `invalidTime` and also
keeps the clock. -/
theorem sync_failure_keeps_offset_witness :
    ((sync_with_server true ⟨0⟩ [] 0 0 0).clock' = ⟨0⟩ ∧
     (sync_with_server true ⟨0⟩ [] 0 0 0).outcome = some SyncOutcome.noReply ∧
     (sync_with_server true ⟨0⟩ [] 0 0 0).scheduledNext = true) ∧
    ((sync_with_server true ⟨0⟩
        [[("type", JVal.str "sync_reply"), ("server_time", JVal.str "x")]]
        3 0 0).clock' = ⟨0⟩ ∧
     (sync_with_server true ⟨0⟩
        [[("type", JVal.str "sync_reply"), ("server_time", JVal.str "x")]]
        3 0 0).outcome = some SyncOutcome.invalidTime) := by
  refine ⟨(sync_failure_keeps_offset ⟨0⟩ [] 0 0 0).1 rfl, ?_⟩
  have h := (sync_failure_keeps_offset ⟨0⟩
      [[("type", JVal.str "sync_reply"), ("server_time", JVal.str "x")]]
      3 0 0).2
      [("type", JVal.str "sync_reply"), ("server_time", JVal.str "x")]
      rfl rfl
  exact ⟨h.1, h.2.1⟩

/-! ## Message framing codec (C7)

The wire layer — `json.dumps(obj) + "\n"` on send, `line.strip()` and
`json.loads` on receive — is the Python standard library's JSON text
codec, external to this repository. The repository-defined content of
the codec is the record shape: which dict each message kind is built as
(the dict literals in `send_msg`, `handle_client` and
`sync_with_server`) and how each consumer reads the fields back
(`msg.get` in `handle_client` and `process_ui_queue`/`sync_with_server`).
We model the codec at that level: `encode` builds the record object and
`decode` performs the field extraction. -/

/-- Structured message variants of the protocol. `from_` renders the
wire field `from` (a Lean keyword). `clientTs` and `serverTs` are
optional; `serverTs` is present only on server→client chat records. -/
inductive Msg where
  | chat (from_ text : String) (clientTs serverTs : Option ℚ)
  | info (text : String)
  | syncRequest
  | syncReply (serverTime : ℚ)
deriving DecidableEq

/-- Encoding of a message as the record object built by the source: the
dict literals of `send_msg` (client chat), `handle_client` (server chat,
info, sync_reply) and `sync_with_server` (sync_request). Following the
source, a chat record always carries the `client_ts` key — explicit
null when the timestamp is absent — while `server_ts` is present only
when the server stamped it. -/
def encode : Msg → JObj
  | Msg.chat f t cts sts =>
    [("type", JVal.str "chat"), ("from", JVal.str f), ("text", JVal.str t),
     ("client_ts", (cts.map JVal.num).getD JVal.null)]
      ++ (match sts with
          | some s => [("server_ts", JVal.num s)]
          | none => [])
  | Msg.info t => [("type", JVal.str "info"), ("text", JVal.str t)]
  | Msg.syncRequest => [("type", JVal.str "sync_request")]
  | Msg.syncReply st => [("type", JVal.str "sync_reply"), ("server_time", JVal.num st)]

/-- Reading an optional numeric field as the consumers do: a number is
kept, an explicit null or a missing key both mean absent. -/
def optNum : Option JVal → Option ℚ
  | some (JVal.num q) => some q
  | _ => none

/-- String content of a field value (the consumers format it directly;
encoded records always hold strings in string positions). -/
def asStr : JVal → String
  | JVal.str s => s
  | _ => ""

/-- Decoding: dispatch on `type` as `handle_client` and
`process_ui_queue` do, reading chat fields with the consumers' defaults
(`from` → "?", `text` → "" or "[info]") and requiring `server_time` of a
`sync_reply` to pass the numeric check of `sync_with_server`; any other
shape is a decode failure. -/
def decode (o : JObj) : Option Msg :=
  let mtype := jGet o "type"
  if mtype = some (JVal.str "chat") then
    some (Msg.chat (asStr (jGetD o "from" (JVal.str "?")))
      (asStr (jGetD o "text" (JVal.str "")))
      (optNum (jGet o "client_ts")) (optNum (jGet o "server_ts")))
  else if mtype = some (JVal.str "info") then
    some (Msg.info (asStr (jGetD o "text" (JVal.str "[info]"))))
  else if mtype = some (JVal.str "sync_request") then
    some Msg.syncRequest
  else if mtype = some (JVal.str "sync_reply") then
    let st := jGet o "server_time"
    if pyIsNumber st then some (Msg.syncReply (pyNumVal (st.getD JVal.null)))
    else none
  else none

/-- C7: for every message of each of the four kinds, decoding the
encoded record yields exactly the original message — every field
preserved, and optional fields that were absent still absent. -/
theorem decode_encode (m : Msg) : decode (encode m) = some m := by
  cases m with
  | chat f t cts sts => cases cts <;> cases sts <;> rfl
  | info t => rfl
  | syncRequest => rfl
  | syncReply st => rfl

end WhatsappLab
